import Mathlib

/-!
Verification development for the ProducerConsumer repository
(ThreadsafeSTLAdapter.h, Producer.h, Consumer.h, ProducerConsumerBase.h,
in the two source variants, namespace `concurrency` and namespace `mt`).

The C++ code is embedded shallowly:

* The adapter's underlying STL container (std::queue / std::priority_queue,
  an external collaborator supplied by the caller) is represented through
  the capability contract the source relies on: `push`, `pop` (remove
  without returning), `empty`, and the discipline-selected accessor
  `getCurrent` (`top()` when the container has one, `front()` otherwise,
  exactly as `concurrency::getCurrent` dispatches).
* The adapter's mutex serializes every operation, so from any single
  observation point each public operation is one atomic state transition;
  operations are therefore embedded as pure state-passing functions.
* Fallible operations (`pop` on an empty adapter throws `EmptyAdapter`)
  return `Except`; the by-reference overloads thread the caller's output
  argument through explicitly so that "left unmodified" is expressible.
* The worker-lifecycle controller is embedded as a step function on an
  explicit controller state, one step per command popped by the control
  thread, with thread join modelled as the synchronous completion of the
  worker loop's exit protocol (join returns only after the worker loop
  observed the cleared enabled flag and returned).
-/

/-- Mirror of `struct concurrency::EmptyAdapter : std::exception`, the
exception thrown by `pop` on an empty adapter. -/
inductive EmptyAdapter where
  | emptyAdapter
deriving DecidableEq, Repr

/-- The `what()` message carried by `EmptyAdapter`. -/
def EmptyAdapter.what : EmptyAdapter → String :=
  fun _ => "Exception: The adapter is empty"

/-- Capability contract of the wrapped STL container, as used by
`concurrency::ThreadsafeSTLAdapter`: `push`, `pop` (remove without
returning), `empty`, and the discipline-selected accessor `getCurrent`
(`top()` for a priority container, `front()` for a FIFO container, the
dispatch performed by `concurrency::getCurrent` via `detectTopMethod`).
`getCurrent` returns `none` exactly on states the source never queries
(the adapter always guards with `empty()` first). -/
structure STLContainer (σ : Type) (α : Type) where
  push       : α → σ → σ
  pop        : σ → σ
  empty      : σ → Bool
  getCurrent : σ → Option α

/-- Mirror of `ThreadsafeSTLAdapter::push(Elem value)`: wrap the value in a
fresh handle and insert it into the underlying container under the lock
(the handle indirection is payload-invisible here; it is modelled
explicitly for the factory claims below). -/
def adapterPush (C : STLContainer σ α) (value : α) (s : σ) : σ :=
  C.push value s

/-- Mirror of `ThreadsafeSTLAdapter::pushAndNotify`: identical to
`adapterPush` on the container state; the extra `notify_one` has no effect
on the container contents. -/
def adapterPushAndNotify (C : STLContainer σ α) (value : α) (s : σ) : σ :=
  adapterPush C value s

/-- Mirror of `std::shared_ptr<Elem> ThreadsafeSTLAdapter::tryPop()`:
under the lock, if the container is empty return a null handle (`none`)
leaving the state alone, else move out `getCurrent` and `pop`. -/
def tryPopShared (C : STLContainer σ α) (s : σ) : Option α × σ :=
  if C.empty s then (none, s)
  else (C.getCurrent s, C.pop s)

/-- Mirror of `bool ThreadsafeSTLAdapter::tryPop(Elem& value)`: under the
lock, if the container is empty return `false` without touching `value`
or the container, else assign `*getCurrent(...)` to `value`, `pop`, and
return `true`. The `getD value` branch is never taken on states the
source reaches (the `empty()` guard ensures `getCurrent` yields an
element for the lawful container instances below). -/
def tryPopRef (C : STLContainer σ α) (value : α) (s : σ) : Bool × α × σ :=
  if C.empty s then (false, value, s)
  else (true, (C.getCurrent s).getD value, C.pop s)

/-- Mirror of `std::shared_ptr<Elem> ThreadsafeSTLAdapter::pop()`: under
the lock, throw `EmptyAdapter` if the container is empty, else move out
`getCurrent` and `pop`, exactly the success path of `tryPopShared`. -/
def popShared (C : STLContainer σ α) (s : σ) : Except EmptyAdapter (Option α × σ) :=
  if C.empty s then .error .emptyAdapter
  else .ok (C.getCurrent s, C.pop s)

/-- Mirror of `void ThreadsafeSTLAdapter::pop(Elem& value)`: the first
component records whether the call threw `EmptyAdapter`; the remaining
components are the output argument and the container state after the
call (both untouched when the exception is thrown, since the throw
happens before the assignment to `value`). -/
def popRef (C : STLContainer σ α) (value : α) (s : σ) :
    Except EmptyAdapter Unit × α × σ :=
  if C.empty s then (.error .emptyAdapter, value, s)
  else (.ok (), (C.getCurrent s).getD value, C.pop s)

/-- Mirror of `std::shared_ptr<Elem> ThreadsafeSTLAdapter::waitAndPop()`:
suspends until the container is non-empty (`none` = the call blocks on
this state with no helper thread to wake it), then pops exactly as the
success path of `tryPopShared`. -/
def waitAndPopShared (C : STLContainer σ α) (s : σ) : Option (Option α × σ) :=
  if C.empty s then none
  else some (C.getCurrent s, C.pop s)

/-- FIFO container instance: std::queue over a std::deque, observed as
the list of stored elements in insertion order. `push` appends at the
back, `front` is the head, `pop` removes the head. -/
def fifoContainer (α : Type) : STLContainer (List α) α where
  push a s := s ++ [a]
  pop s := s.tail
  empty s := s.isEmpty
  getCurrent s := s.head?

/-- Heap insertion into a descending-sorted list: the new element goes
in front of the first strictly smaller element (so among comparator-equal
elements the already-present ones stay in front). -/
def prioInsert (lt : α → α → Bool) (a : α) : List α → List α
  | [] => [a]
  | x :: xs => if lt x a then a :: x :: xs else x :: prioInsert lt a xs

/-- Priority container instance: std::priority_queue with comparator `lt`
(max-first). The priority queue is an external collaborator supplied by
the caller; its abstract state is the multiset of stored elements,
represented canonically as a list sorted in descending comparator order,
so that `top()` (the maximal element) is the head and `pop()` removes
it. -/
def prioContainer (lt : α → α → Bool) : STLContainer (List α) α where
  push a s := prioInsert lt a s
  pop s := s.tail
  empty s := s.isEmpty
  getCurrent s := s.head?

/-- A sequence of `push` calls on one adapter, from a single thread. -/
def pushAll (C : STLContainer σ α) (xs : List α) (s : σ) : σ :=
  xs.foldl (fun t a => adapterPush C a t) s

/-- A sequence of `fuel` successive `tryPop` calls on one adapter from a
single thread, collecting the successfully popped elements; a call that
returns no value contributes nothing and every later call would also
return no value (the state is unchanged by a failed `tryPop`). -/
def drainAdapter (C : STLContainer σ α) : Nat → σ → List α
  | 0, _ => []
  | n + 1, s =>
    match tryPopShared C s with
    | (none, _) => []
    | (some v, s') => v :: drainAdapter C n s'

/-- One `std::make_shared<AdaptElem>` allocation, the shared-ownership
unit the adapter stores: `id` is the identity of the freshly allocated
control block (two handles from distinct `make_shared` calls have
distinct ids), `value` the payload placed into it. -/
structure ElementHandle (α : Type) where
  id : Nat
  value : α
deriving DecidableEq, Repr

/-- Mirror of `concurrency::CustomComparator<Comparator>`: wraps the
caller-supplied comparator so that two shared-ownership handles are
compared by their dereferenced payloads (`m_comparator(*x, *y)`), never
by the handles themselves. -/
def CustomComparator (cmp : α → α → Bool) (x y : ElementHandle α) : Bool :=
  cmp x.value y.value

/-- Mirror of the element transfer inside
`concurrency::createThreadsafeSTLAdapterFrom` (const-reference overload):
`std::transform(underlyingContainer.cbegin(), .cend(),
std::back_inserter(underlyingSharedPtrContainer),
[](auto& item) { return std::make_shared<AdaptElem>(item); })` —
each element of the source's protected container is copied, in iteration
order, into a freshly allocated handle; `base` is the allocator state
(ids of all earlier allocations are below `base`). -/
def createHandlesFromCopy (base : Nat) : List α → List (ElementHandle α)
  | [] => []
  | a :: rest => ⟨base, a⟩ :: createHandlesFromCopy (base + 1) rest

/-- Mirror of the element transfer inside the rvalue-reference overload of
`concurrency::createThreadsafeSTLAdapterFrom`: identical, except each
source element is moved (`std::make_shared<AdaptElem>(std::move(item))`)
into the fresh handle, leaving the source element moved-from; on the
observable payloads the produced handles are the same. -/
def createHandlesFromMove (base : Nat) (src : List α) : List (ElementHandle α) :=
  createHandlesFromCopy base src

/-- Mirror of the wait predicate used by the condition-variable worker
loops (`concurrency::Producer::workerThreadWork` and
`concurrency::Consumer::workerThreadWork`):
`[&] { return !enabled ? true : queue.tryPop(out); }`.
Given the enabled flag observed at this evaluation (the predicate runs
under `m_workerThreadMutex`, the same mutex `disableWorkerThreadIfEnabled`
takes to clear the flag) and the source queue contents, it returns the
predicate's boolean result, the element the embedded `tryPop` moved into
the local variable (`none` when `tryPop` was not called or found the
queue empty), and the queue contents afterwards. When the flag is down
the short-circuit returns `true` without calling `tryPop`. -/
def workerWaitPredicate (enabled : Bool) (buf : List β) :
    Bool × Option β × List β :=
  if enabled then
    match buf with
    | [] => (false, none, [])
    | b :: rest => (true, some b, rest)
  else (true, none, buf)

/-- Mirror of `concurrency::Producer::workerThreadWork`. Each entry of
`sched` is the value of `m_workerThreadEnabled` at one evaluation of the
wait predicate; `buf` is the internal `m_vectorItemsQueue` of pending
batches, `shared` the contents of the shared adapter the loop forwards
into. Because `m_workerThreadMutex` is held without interruption from the
predicate evaluation through the whole forwarding for-loop of the
iteration, a batch that the predicate popped is forwarded completely
before the flag can next be observed, and the `if (!m_workerThreadEnabled)
... break` after the wait sees the same flag value the predicate saw; the
loop can therefore only exit at a predicate evaluation that took the
short-circuit arm, which pops nothing. An exhausted schedule means the
worker is still running or blocked in `wait`; the pair returned is
(remaining buffer, shared adapter contents). -/
def producerRunLoop : List Bool → List (List α) → List α → List (List α) × List α
  | [], buf, shared => (buf, shared)
  | e :: sched, buf, shared =>
    match workerWaitPredicate e buf with
    | (false, _, buf') => producerRunLoop sched buf' shared
    | (true, none, buf') => (buf', shared)
    | (true, some b, buf') => producerRunLoop sched buf' (shared ++ b)

/-- Result of one run of `concurrency::Consumer::workerThreadWork`:
contents left in the shared adapter, items handed to a completed callback
invocation (in invocation order), and whether the run ended because a
callback invocation threw (the exception propagates out of
`workerThreadWork`; it is caught one frame up, in the lambda passed to
the worker `std::thread` in `ProducerConsumerBase::mainThreadWork`, so
the worker thread exits instead of iterating further). -/
structure ConsumerRun (α : Type) where
  remaining : List α
  delivered : List α
  exitedByCallbackFailure : Bool
deriving DecidableEq, Repr

/-- Mirror of `concurrency::Consumer::workerThreadWork` with an explicit
callback outcome: `cb x = true` models `m_callable(x)` returning
normally, `cb x = false` models it throwing. Each entry of `sched` is the
enabled flag observed at one wait-predicate evaluation (the predicate's
embedded `tryPop` pops from the shared adapter). A popped element is
passed to the callback in the same mutex-held iteration, so the loop
never exits while holding a popped-but-undelivered element; a callback
throw ends the loop at once (there is no per-item catch inside
`workerThreadWork`), losing that element and leaving the rest in the
adapter. -/
def consumerRunLoop (cb : α → Bool) :
    List Bool → List α → List α → ConsumerRun α
  | [], shared, delivered => ⟨shared, delivered, false⟩
  | e :: sched, shared, delivered =>
    match workerWaitPredicate e shared with
    | (false, _, shared') => consumerRunLoop cb sched shared' delivered
    | (true, none, shared') => ⟨shared', delivered, false⟩
    | (true, some x, shared') =>
      if cb x then consumerRunLoop cb sched shared' (delivered ++ [x])
      else ⟨shared', delivered, true⟩

/-- The three lifecycle commands carried by the controller's private
command queue (`ProducerConsumerBase::Command`). -/
inductive Command where
  | enableWorkerThread
  | disableWorkerThread
  | shutdownMainThread
deriving DecidableEq, Repr

/-- Controller state of `concurrency::ProducerConsumerBase`, as observed
by the control thread between two commands: the `m_workerThreadEnabled`
and `m_isWorkerThreadRunning` flags, the number of spawned and not yet
joined worker threads (`liveWorkers`), and whether `mainThreadWork` has
broken out of its command loop. The worker thread sets
`m_isWorkerThreadRunning` to `true` at the top of its loop and to `false`
just before returning; since the control thread joins the worker before
clearing `liveWorkers` and reads the flag only while no disable is in
flight, the flag equals the enabled flag at every command boundary, which
is how it is folded into the synchronous step below. -/
structure CtrlState where
  workerThreadEnabled : Bool
  isWorkerThreadRunning : Bool
  liveWorkers : Nat
  mainExited : Bool
deriving DecidableEq, Repr

/-- The controller state right after construction of
`concurrency::ProducerConsumerBase`: both flags false, no worker thread,
command loop running. -/
def ccInit : CtrlState := ⟨false, false, 0, false⟩

/-- Mirror of `concurrency::ProducerConsumerBase::disableWorkerThreadIfEnabled`:
under `m_workerThreadMutex`, if the worker is enabled, clear the flag,
wake the worker, and join it — join returns only after the worker loop
observed the cleared flag, set `m_isWorkerThreadRunning` to false, and
returned, so the whole sequence completes synchronously before the next
command is popped. If the worker is not enabled, nothing is touched. -/
def disableWorkerThreadIfEnabled (s : CtrlState) : CtrlState :=
  if s.workerThreadEnabled then
    { s with workerThreadEnabled := false, isWorkerThreadRunning := false,
             liveWorkers := s.liveWorkers - 1 }
  else s

/-- Mirror of one iteration of `concurrency::ProducerConsumerBase::mainThreadWork`:
the control thread pops one command and acts on it. Once the loop has
broken (after `ShutdownMainThread`) no further command is ever popped, so
later commands leave the state untouched. `EnableWorkerThread` spawns a
new worker thread only under the guard
`!m_workerThreadEnabled && !m_isWorkerThreadRunning`, taken under
`m_workerThreadMutex`. -/
def mainThreadStep (s : CtrlState) (c : Command) : CtrlState :=
  if s.mainExited then s
  else
    match c with
    | .enableWorkerThread =>
      if !s.workerThreadEnabled && !s.isWorkerThreadRunning then
        { s with workerThreadEnabled := true, isWorkerThreadRunning := true,
                 liveWorkers := s.liveWorkers + 1 }
      else s
    | .disableWorkerThread => disableWorkerThreadIfEnabled s
    | .shutdownMainThread =>
      { disableWorkerThreadIfEnabled s with mainExited := true }

/-- The control thread draining its command queue in submission order
(the queue is a FIFO `ThreadsafeSTLAdapter` with a single consumer). -/
def processCommands (s : CtrlState) (cmds : List Command) : CtrlState :=
  cmds.foldl mainThreadStep s

/-- True exactly when processing `c` in state `s` executes the
`m_workerThread = std::make_unique<std::thread>(...)` line of
`concurrency::ProducerConsumerBase::mainThreadWork`, i.e. spawns a new
worker thread. -/
def spawnsWorker (s : CtrlState) (c : Command) : Bool :=
  !s.mainExited && c == .enableWorkerThread
    && !s.workerThreadEnabled && !s.isWorkerThreadRunning

/-- Undefined behaviour reached by calling a member function through a
null `std::unique_ptr` holding a thread object. -/
inductive NullThreadHandle where
  | nullWorkerThread
  | nullMainThread
deriving DecidableEq, Repr

/-- Controller state of the `mt::ProducerConsumerBase` variant:
`workerThreadEnabled` is the atomic flag, `workerThreadAllocated` records
whether `m_workerThread` still holds its default null `unique_ptr`
(no `std::jthread` object was ever assigned) or a thread object (possibly
already joined), `liveWorker` whether a spawned worker is not yet joined,
and `mainExited` whether `mainThreadWork` has broken out of its loop. -/
structure MtCtrlState where
  workerThreadEnabled : Bool
  workerThreadAllocated : Bool
  liveWorker : Bool
  mainExited : Bool
deriving DecidableEq, Repr

/-- `mt::ProducerConsumerBase` state right after construction. -/
def mtInit : MtCtrlState := ⟨false, false, false, false⟩

/-- Mirror of `mt::ProducerConsumerBase::interruptWorkerThread`: under
`m_workerThreadMutex` it clears `m_workerThreadEnabled` and then
unconditionally evaluates `m_workerThread->joinable()`. When no worker
thread was ever assigned, `m_workerThread` is the default-constructed
null `unique_ptr`, so the call dereferences null (undefined behaviour),
modelled as the error case. Otherwise the flag is cleared and a still
joinable worker is joined. -/
def mtInterruptWorkerThread (s : MtCtrlState) : Except NullThreadHandle MtCtrlState :=
  if s.workerThreadAllocated then
    .ok { s with workerThreadEnabled := false, liveWorker := false }
  else .error .nullWorkerThread

/-- Mirror of one iteration of `mt::ProducerConsumerBase::mainThreadWork`:
`EnableWorkerThread` is guarded only by `!m_workerThreadEnabled` (this
variant has no `m_isWorkerThreadRunning`); when taken it sets the flag
and assigns a fresh `std::jthread` to `m_workerThread`.
`DisableWorkerThread` calls `interruptWorkerThread`, and
`ShutdownMainThread` does the same and then breaks out of the loop. -/
def mtMainThreadStep (s : MtCtrlState) (c : Command) :
    Except NullThreadHandle MtCtrlState :=
  if s.mainExited then .ok s
  else
    match c with
    | .enableWorkerThread =>
      if !s.workerThreadEnabled then
        .ok { s with workerThreadEnabled := true, workerThreadAllocated := true,
                     liveWorker := true }
      else .ok s
    | .disableWorkerThread => mtInterruptWorkerThread s
    | .shutdownMainThread =>
      match mtInterruptWorkerThread s with
      | .error e => .error e
      | .ok s' => .ok { s' with mainExited := true }

/-- The `mt` control thread draining its command queue in submission
order, stopping at the first undefined-behaviour point. -/
def mtProcessCommands (s : MtCtrlState) :
    List Command → Except NullThreadHandle MtCtrlState
  | [] => .ok s
  | c :: cs =>
    match mtMainThreadStep s c with
    | .error e => .error e
    | .ok s' => mtProcessCommands s' cs

/-- The pieces of `concurrency::ProducerConsumerBase` touched by
`runMainThread` and `shutdownMainThread`: whether `m_mainThread` holds a
thread object (it keeps its default null `unique_ptr` when the
`std::thread` constructor threw) and the command queue the public
operations push into. -/
structure ControllerLifecycle where
  mainThreadAllocated : Bool
  commandQueue : List Command
deriving DecidableEq, Repr

/-- `concurrency::ProducerConsumerBase` lifecycle state at construction:
`m_mainThread` null, command queue empty. -/
def controllerInit : ControllerLifecycle := ⟨false, []⟩

/-- Mirror of `concurrency::ProducerConsumerBase::runMainThread`:
constructing the control thread may throw; the exception is caught in
the function (reported only under the DEBUG build flag) and the
controller construction continues, leaving `m_mainThread` null. -/
def runMainThread (startSucceeds : Bool) (s : ControllerLifecycle) :
    ControllerLifecycle :=
  if startSucceeds then { s with mainThreadAllocated := true } else s

/-- Mirror of `concurrency::ProducerConsumerBase::enableWorkerThread`:
push `EnableWorkerThread` onto the command queue and notify; a pure
enqueue that touches no thread handle. -/
def enableWorkerThread (s : ControllerLifecycle) : ControllerLifecycle :=
  { s with commandQueue := s.commandQueue ++ [Command.enableWorkerThread] }

/-- Mirror of `concurrency::ProducerConsumerBase::disableWorkerThread`:
push `DisableWorkerThread` onto the command queue and notify. -/
def disableWorkerThread (s : ControllerLifecycle) : ControllerLifecycle :=
  { s with commandQueue := s.commandQueue ++ [Command.disableWorkerThread] }

/-- Mirror of `concurrency::ProducerConsumerBase::shutdownMainThread`
(run by every role destructor): push `ShutdownMainThread` inside a
try/catch, then evaluate `m_mainThread->joinable()` outside any guard —
when `runMainThread` had failed, `m_mainThread` is still the null
`unique_ptr` and the call dereferences null (undefined behaviour),
modelled as the error case; otherwise the control thread is joined. -/
def shutdownMainThread (s : ControllerLifecycle) :
    Except NullThreadHandle ControllerLifecycle :=
  let s' := { s with commandQueue := s.commandQueue ++ [Command.shutdownMainThread] }
  if s'.mainThreadAllocated then .ok s' else .error .nullMainThread

/-- Invariant of the `concurrency` controller at command boundaries: the
running flag mirrors the enabled flag, and exactly one worker thread is
live while enabled, none while idle. -/
def CtrlInv (s : CtrlState) : Prop :=
  s.isWorkerThreadRunning = s.workerThreadEnabled
  ∧ s.liveWorkers = (if s.workerThreadEnabled then 1 else 0)

/-- Invariant of the `mt` controller along undefined-behaviour-free runs:
a live worker implies the enabled flag is up. -/
def MtCtrlInv (s : MtCtrlState) : Prop :=
  s.liveWorker = true → s.workerThreadEnabled = true

/-- The comparator `std::less<int>` the demo supplies to the max-first
priority adapter, as a boolean strict less-than on naturals. -/
def natLtb (a b : Nat) : Bool := decide (a < b)

theorem tryPopShared_fifo_cons {α : Type} (x : α) (xs : List α) :
    tryPopShared (fifoContainer α) (x :: xs) = (some x, xs) := rfl

theorem tryPopShared_prio_cons {α : Type} (lt : α → α → Bool) (x : α) (xs : List α) :
    tryPopShared (prioContainer lt) (x :: xs) = (some x, xs) := rfl

theorem drainAdapter_fifo {α : Type} (n : Nat) (l : List α) :
    drainAdapter (fifoContainer α) n l = l.take n := by
  induction n generalizing l with
  | zero => simp [drainAdapter]
  | succ n ih =>
    cases l with
    | nil => rfl
    | cons x xs =>
      rw [drainAdapter, tryPopShared_fifo_cons]
      simp [ih]

theorem drainAdapter_prio {α : Type} (lt : α → α → Bool) (n : Nat) (l : List α) :
    drainAdapter (prioContainer lt) n l = l.take n := by
  induction n generalizing l with
  | zero => simp [drainAdapter]
  | succ n ih =>
    cases l with
    | nil => rfl
    | cons x xs =>
      rw [drainAdapter, tryPopShared_prio_cons]
      simp [ih]

theorem pushAll_fifo {α : Type} (xs s : List α) :
    pushAll (fifoContainer α) xs s = s ++ xs := by
  induction xs generalizing s with
  | nil => simp [pushAll]
  | cons x xs ih =>
    have h : pushAll (fifoContainer α) (x :: xs) s
        = pushAll (fifoContainer α) xs (s ++ [x]) := rfl
    rw [h, ih]
    simp

theorem prioInsert_perm {α : Type} (lt : α → α → Bool) (a : α) (l : List α) :
    (prioInsert lt a l).Perm (a :: l) := by
  induction l with
  | nil => simp [prioInsert]
  | cons x xs ih =>
    cases h : lt x a with
    | true => simp [prioInsert, h]
    | false =>
      simp only [prioInsert, h, Bool.false_eq_true, if_false]
      exact (ih.cons x).trans (List.Perm.swap a x xs)

theorem pushAll_prio_cons {α : Type} (lt : α → α → Bool) (x : α) (xs s : List α) :
    pushAll (prioContainer lt) (x :: xs) s
      = pushAll (prioContainer lt) xs (prioInsert lt x s) := rfl

theorem pushAll_prio_perm {α : Type} (lt : α → α → Bool) (xs s : List α) :
    (pushAll (prioContainer lt) xs s).Perm (s ++ xs) := by
  induction xs generalizing s with
  | nil => simp [pushAll]
  | cons x xs ih =>
    rw [pushAll_prio_cons]
    refine (ih (prioInsert lt x s)).trans ?_
    refine ((prioInsert_perm lt x s).append_right xs).trans ?_
    exact List.perm_middle.symm

theorem prioInsert_sorted {α : Type} (lt : α → α → Bool)
    (hasym : ∀ a b, lt a b = true → lt b a = false)
    (htrans : ∀ a b c, lt a b = true → lt b c = true → lt a c = true)
    (a : α) (l : List α) (hl : l.Pairwise (fun x y => lt x y = false)) :
    (prioInsert lt a l).Pairwise (fun x y => lt x y = false) := by
  induction l with
  | nil => simp [prioInsert]
  | cons x xs ih =>
    obtain ⟨hx, hxs⟩ := List.pairwise_cons.mp hl
    cases h : lt x a with
    | true =>
      simp only [prioInsert, h, if_true]
      refine List.pairwise_cons.mpr ⟨?_, hl⟩
      intro y hy
      rcases List.mem_cons.mp hy with rfl | hy'
      · exact hasym _ _ h
      · cases hya : lt a y with
        | false => rfl
        | true =>
          have hxy := htrans x a y h hya
          rw [hx y hy'] at hxy
          exact absurd hxy (by simp)
    | false =>
      simp only [prioInsert, h, Bool.false_eq_true, if_false]
      refine List.pairwise_cons.mpr ⟨?_, ih hxs⟩
      intro y hy
      have hy' := (prioInsert_perm lt a xs).mem_iff.mp hy
      rcases List.mem_cons.mp hy' with rfl | hy''
      · exact h
      · exact hx y hy''

theorem pushAll_prio_sorted {α : Type} (lt : α → α → Bool)
    (hasym : ∀ a b, lt a b = true → lt b a = false)
    (htrans : ∀ a b c, lt a b = true → lt b c = true → lt a c = true)
    (xs s : List α) (hs : s.Pairwise (fun x y => lt x y = false)) :
    (pushAll (prioContainer lt) xs s).Pairwise (fun x y => lt x y = false) := by
  induction xs generalizing s with
  | nil => simpa [pushAll] using hs
  | cons x xs ih =>
    rw [pushAll_prio_cons]
    exact ih _ (prioInsert_sorted lt hasym htrans x s hs)

theorem producerRunLoop_take_drop {α : Type} (sched : List Bool)
    (buf : List (List α)) (shared : List α) :
    ∃ k, producerRunLoop sched buf shared
      = (buf.drop k, shared ++ (buf.take k).flatten) := by
  induction sched generalizing buf shared with
  | nil => exact ⟨0, by simp [producerRunLoop]⟩
  | cons e sched ih =>
    cases e with
    | false => exact ⟨0, by simp [producerRunLoop, workerWaitPredicate]⟩
    | true =>
      cases buf with
      | nil =>
        obtain ⟨k, hk⟩ := ih ([] : List (List α)) shared
        exact ⟨k, by simpa [producerRunLoop, workerWaitPredicate] using hk⟩
      | cons b rest =>
        obtain ⟨k, hk⟩ := ih rest (shared ++ b)
        refine ⟨k + 1, ?_⟩
        simpa [producerRunLoop, workerWaitPredicate] using hk

theorem producerRunLoop_drains {α : Type} (buf : List (List α)) (shared : List α) :
    producerRunLoop (List.replicate buf.length true) buf shared
      = ([], shared ++ buf.flatten) := by
  induction buf generalizing shared with
  | nil => simp [producerRunLoop]
  | cons b rest ih =>
    rw [List.length_cons, List.replicate_succ]
    have h : producerRunLoop (true :: List.replicate rest.length true) (b :: rest) shared
        = producerRunLoop (List.replicate rest.length true) rest (shared ++ b) := rfl
    rw [h, ih]
    simp

theorem consumerRunLoop_ok_take_drop {α : Type} (sched : List Bool)
    (shared delivered : List α) :
    ∃ j, consumerRunLoop (fun _ => true) sched shared delivered
      = ⟨shared.drop j, delivered ++ shared.take j, false⟩ := by
  induction sched generalizing shared delivered with
  | nil => exact ⟨0, by simp [consumerRunLoop]⟩
  | cons e sched ih =>
    cases e with
    | false => exact ⟨0, by simp [consumerRunLoop, workerWaitPredicate]⟩
    | true =>
      cases shared with
      | nil =>
        obtain ⟨j, hj⟩ := ih ([] : List α) delivered
        exact ⟨j, by simpa [consumerRunLoop, workerWaitPredicate] using hj⟩
      | cons x rest =>
        obtain ⟨j, hj⟩ := ih rest (delivered ++ [x])
        refine ⟨j + 1, ?_⟩
        simpa [consumerRunLoop, workerWaitPredicate] using hj

theorem ctrlInv_init : CtrlInv ccInit := by
  constructor <;> rfl

theorem ctrlInv_step (s : CtrlState) (c : Command) (h : CtrlInv s) :
    CtrlInv (mainThreadStep s c) := by
  obtain ⟨en, run, live, ex⟩ := s
  obtain ⟨h1, h2⟩ := h
  simp only [CtrlInv] at h1 h2
  subst h1
  cases run <;> simp only [if_true, Bool.false_eq_true, if_false] at h2 <;>
    subst h2 <;> cases c <;> cases ex <;>
    simp [CtrlInv, mainThreadStep, disableWorkerThreadIfEnabled]

theorem ctrlInv_process (cmds : List Command) (s : CtrlState) (h : CtrlInv s) :
    CtrlInv (processCommands s cmds) := by
  induction cmds generalizing s with
  | nil => exact h
  | cons c cs ih => exact ih (mainThreadStep s c) (ctrlInv_step s c h)

theorem mtCtrlInv_step (s : MtCtrlState) (c : Command) (s' : MtCtrlState)
    (h : MtCtrlInv s) (hstep : mtMainThreadStep s c = .ok s') : MtCtrlInv s' := by
  obtain ⟨en, alloc, live, ex⟩ := s
  cases c <;> cases ex <;> cases en <;> cases alloc <;>
    simp [mtMainThreadStep, mtInterruptWorkerThread] at hstep <;>
    (subst hstep; intro hl; first | rfl | exact h hl | simp_all)

theorem mtCtrlInv_process (cmds : List Command) (s s' : MtCtrlState)
    (h : MtCtrlInv s) (hrun : mtProcessCommands s cmds = .ok s') : MtCtrlInv s' := by
  induction cmds generalizing s with
  | nil =>
    unfold mtProcessCommands at hrun
    cases hrun
    exact h
  | cons c cs ih =>
    unfold mtProcessCommands at hrun
    cases hstep : mtMainThreadStep s c with
    | error e => rw [hstep] at hrun; cases hrun
    | ok s1 =>
      rw [hstep] at hrun
      exact ih s1 (mtCtrlInv_step s c s1 h hstep) hrun

theorem createHandlesFromCopy_map_value {α : Type} (base : Nat) (src : List α) :
    (createHandlesFromCopy base src).map ElementHandle.value = src := by
  induction src generalizing base with
  | nil => rfl
  | cons a rest ih => simp [createHandlesFromCopy, ih]

theorem createHandlesFromCopy_id_bounds {α : Type} (base : Nat) (src : List α) :
    ∀ h ∈ createHandlesFromCopy base src, base ≤ h.id ∧ h.id < base + src.length := by
  induction src generalizing base with
  | nil => intro h hmem; simp [createHandlesFromCopy] at hmem
  | cons a rest ih =>
    intro h hmem
    rcases List.mem_cons.mp hmem with rfl | hmem'
    · simp
    · obtain ⟨hlo, hhi⟩ := ih (base + 1) h hmem'
      constructor
      · omega
      · simp only [List.length_cons]
        omega

theorem createHandlesFromCopy_fresh {α : Type} (base : Nat) (src : List α) :
    (createHandlesFromCopy base src).Pairwise (fun h1 h2 => h1.id ≠ h2.id) := by
  induction src generalizing base with
  | nil => simp [createHandlesFromCopy]
  | cons a rest ih =>
    refine List.pairwise_cons.mpr ⟨?_, ih (base + 1)⟩
    intro h hmem
    have := (createHandlesFromCopy_id_bounds (base + 1) rest h hmem).1
    simp only [ne_eq]
    omega

/-- C1: For every sequence of pushes and pops on one adapter instance from
a single thread, the FIFO discipline returns elements in insertion order
and the priority discipline returns them in descending comparator order
(a permutation of the pushed elements in which no element is
comparator-less than a later one); concretely, a FIFO adapter seeded with
[5, 1, 3] yields 5, 1, 3 from three successive tryPop calls with a fourth
call yielding no value (draining with four tryPop calls still returns
exactly those three elements), and a max-first priority adapter seeded
with [5, 1, 3] yields 5, 3, 1. -/
theorem fifoPrioDisciplineOrder {α : Type} (lt : α → α → Bool)
    (hasym : ∀ a b, lt a b = true → lt b a = false)
    (htrans : ∀ a b c, lt a b = true → lt b c = true → lt a c = true)
    (xs : List α) :
    drainAdapter (fifoContainer α) xs.length (pushAll (fifoContainer α) xs []) = xs
    ∧ (drainAdapter (prioContainer lt) xs.length
        (pushAll (prioContainer lt) xs [])).Perm xs
    ∧ (drainAdapter (prioContainer lt) xs.length
        (pushAll (prioContainer lt) xs [])).Pairwise (fun a b => lt a b = false)
    ∧ drainAdapter (fifoContainer Nat) 4 (pushAll (fifoContainer Nat) [5, 1, 3] [])
        = [5, 1, 3]
    ∧ drainAdapter (prioContainer natLtb) 4
        (pushAll (prioContainer natLtb) [5, 1, 3] []) = [5, 3, 1] := by
  have hperm : (pushAll (prioContainer lt) xs []).Perm xs := by
    simpa using pushAll_prio_perm lt xs []
  have hdrain : drainAdapter (prioContainer lt) xs.length
      (pushAll (prioContainer lt) xs []) = pushAll (prioContainer lt) xs [] := by
    rw [drainAdapter_prio, ← hperm.length_eq, List.take_length]
  refine ⟨?_, ?_, ?_, by decide, by decide⟩
  · rw [pushAll_fifo, drainAdapter_fifo]
    simp
  · rw [hdrain]
    exact hperm
  · rw [hdrain]
    exact pushAll_prio_sorted lt hasym htrans xs [] (by simp)

/-- Witness for fifoPrioDisciplineOrder at the comparator std::less on
naturals and the seed [5, 1, 3] of the specified scenario. -/
theorem fifoPrioDisciplineOrderWitness :
    drainAdapter (prioContainer natLtb) 4
      (pushAll (prioContainer natLtb) [5, 1, 3] []) = [5, 3, 1] :=
  (fifoPrioDisciplineOrder natLtb
    (by
      intro a b hab
      simp only [natLtb, decide_eq_true_eq] at hab
      simp only [natLtb, decide_eq_false_iff_not]
      omega)
    (by
      intro a b c hab hbc
      simp only [natLtb, decide_eq_true_eq] at hab hbc ⊢
      omega)
    [5, 1, 3]).2.2.2.2

/-- C2: On an empty adapter, pop fails by signalling EmptyAdapter while
tryPop signals no value without throwing (its result type carries no
exception at all), both returning immediately from a single lock
acquisition rather than waiting; on a non-empty adapter both overloads of
both operations succeed with the discipline-selected element
getCurrent. -/
theorem emptyAdapterSignalling {σ α : Type} (C : STLContainer σ α) (s : σ) (v : α) :
    (C.empty s = true →
      popShared C s = .error .emptyAdapter
      ∧ popRef C v s = (.error .emptyAdapter, v, s)
      ∧ tryPopShared C s = (none, s)
      ∧ tryPopRef C v s = (false, v, s))
    ∧ (C.empty s = false →
      popShared C s = .ok (C.getCurrent s, C.pop s)
      ∧ tryPopShared C s = (C.getCurrent s, C.pop s)
      ∧ popRef C v s = (.ok (), (C.getCurrent s).getD v, C.pop s)
      ∧ tryPopRef C v s = (true, (C.getCurrent s).getD v, C.pop s)) := by
  constructor <;> intro h <;>
    simp [popShared, popRef, tryPopShared, tryPopRef, h]

/-- Witness for emptyAdapterSignalling on an empty and a non-empty FIFO
adapter over naturals. -/
theorem emptyAdapterSignallingWitness :
    popShared (fifoContainer Nat) [] = .error .emptyAdapter
    ∧ tryPopShared (fifoContainer Nat) [1, 2] = (some 1, [2]) :=
  ⟨((emptyAdapterSignalling (fifoContainer Nat) [] 0).1 rfl).1,
   ((emptyAdapterSignalling (fifoContainer Nat) [1, 2] 0).2 rfl).2.1⟩

/-- C7: On every non-empty adapter state, every successful pop — pop,
tryPop (either overload) or waitAndPop — returns exactly the element the
discipline-selected accessor getCurrent (top for priority, front for
FIFO) yields at that instant, and pop is identical to tryPop's success
path (same element, same resulting state); for the concrete disciplines,
getCurrent is the container head (the front of the FIFO queue, the top,
that is, the maximum, of the descending-ordered priority container). -/
theorem popRefinesTryPopSuccessPath {σ α : Type} (C : STLContainer σ α)
    (lt : α → α → Bool) (s : σ) (t : List α) (v : α) (h : C.empty s = false) :
    tryPopShared C s = (C.getCurrent s, C.pop s)
    ∧ popShared C s = .ok (tryPopShared C s)
    ∧ waitAndPopShared C s = some (tryPopShared C s)
    ∧ popRef C v s = (.ok (), (tryPopRef C v s).2.1, (tryPopRef C v s).2.2)
    ∧ (tryPopRef C v s).1 = true
    ∧ (fifoContainer α).getCurrent t = t.head?
    ∧ (prioContainer lt).getCurrent t = t.head? := by
  refine ⟨?_, ?_, ?_, ?_, ?_, rfl, rfl⟩ <;>
    simp [tryPopShared, popShared, waitAndPopShared, popRef, tryPopRef, h]

/-- Witness for popRefinesTryPopSuccessPath on the non-empty FIFO
adapter holding [5, 1, 3]. -/
theorem popRefinesTryPopSuccessPathWitness :
    popShared (fifoContainer Nat) [5, 1, 3]
      = .ok (tryPopShared (fifoContainer Nat) [5, 1, 3]) :=
  (popRefinesTryPopSuccessPath (fifoContainer Nat) natLtb [5, 1, 3] [] 0 rfl).2.1

/-- C10: On an adapter whose underlying container is empty, the failing
pop and the value-less tryPop are atomic no-ops: the container state that
comes back is the one that went in (nothing is consumed), and the output
argument of the by-reference overloads is returned unmodified. -/
theorem emptyPopAtomicNoop {σ α : Type} (C : STLContainer σ α) (s : σ) (v : α)
    (h : C.empty s = true) :
    tryPopShared C s = (none, s)
    ∧ tryPopRef C v s = (false, v, s)
    ∧ popShared C s = .error .emptyAdapter
    ∧ popRef C v s = (.error .emptyAdapter, v, s) := by
  simp [tryPopShared, tryPopRef, popShared, popRef, h]

/-- Witness for emptyPopAtomicNoop on the empty FIFO adapter with output
argument 7. -/
theorem emptyPopAtomicNoopWitness :
    tryPopRef (fifoContainer Nat) 7 [] = (false, 7, []) :=
  (emptyPopAtomicNoop (fifoContainer Nat) [] 7 rfl).2.1

/-- C3: For either role, the sequence Enable, push of the batches `bs`,
Disable, Enable delivers every item exactly once and in order across the
intervening Disable window. Producer side: under any schedule of observed
enabled flags, the first worker session forwards a prefix of whole
batches in pushed order and exits holding nothing, leaving exactly the
unforwarded batches intact in the internal buffer; a second session that
stays enabled long enough then forwards the remainder, so the shared
adapter receives precisely the concatenation of all pushed batches, once,
in order. Consumer side: under any schedule with a never-failing
callback, the delivered items and the items still in the shared adapter
are the take/drop split of the adapter contents at one index — the loop
never exits while holding an already-popped-but-undelivered element. -/
theorem disableEnableExactOnceDelivery {α : Type} (bs : List (List α))
    (sched csched : List Bool) (shared : List α) :
    (∃ k, producerRunLoop sched bs [] = (bs.drop k, (bs.take k).flatten)
      ∧ producerRunLoop (List.replicate (bs.drop k).length true)
          (bs.drop k) ((bs.take k).flatten) = ([], bs.flatten))
    ∧ (∃ j, consumerRunLoop (fun _ => true) csched shared []
        = ⟨shared.drop j, shared.take j, false⟩) := by
  constructor
  · obtain ⟨k, hk⟩ := producerRunLoop_take_drop sched bs []
    refine ⟨k, by simpa using hk, ?_⟩
    rw [producerRunLoop_drains, ← List.flatten_append, List.take_append_drop]
  · obtain ⟨j, hj⟩ := consumerRunLoop_ok_take_drop csched shared []
    exact ⟨j, by simpa using hj⟩

/-- C5: In every state the concurrency-variant control thread can reach
from construction under any command sequence, at most one worker thread
is live; a step that executes the worker-spawning branch does so only
from a state with no live worker; and along every
undefined-behaviour-free run of the mt variant, reaching a state where
the spawn guard !m_workerThreadEnabled would fire implies no previous
worker thread is still live there. -/
theorem singleLiveWorkerInvariant (cmds : List Command) (c : Command)
    (s' : MtCtrlState) :
    (processCommands ccInit cmds).liveWorkers ≤ 1
    ∧ (spawnsWorker (processCommands ccInit cmds) c = true
        → (processCommands ccInit cmds).liveWorkers = 0)
    ∧ (mtProcessCommands mtInit cmds = .ok s'
        → s'.workerThreadEnabled = false → s'.liveWorker = false) := by
  obtain ⟨h1, h2⟩ := ctrlInv_process cmds ccInit ctrlInv_init
  refine ⟨?_, ?_, ?_⟩
  · rw [h2]
    split <;> omega
  · intro hsp
    simp only [spawnsWorker, Bool.and_eq_true, Bool.not_eq_true', beq_iff_eq] at hsp
    rw [h2, hsp.1.2]
    simp
  · intro hrun hen
    have hinv := mtCtrlInv_process cmds mtInit s'
      (fun hl => by simp [mtInit] at hl) hrun
    cases hl : s'.liveWorker with
    | false => rfl
    | true =>
      rw [hinv hl] at hen
      simp at hen

/-- Witness for singleLiveWorkerInvariant on the rapid
Enable, Disable, Enable command sequence of the claim. -/
theorem singleLiveWorkerInvariantWitness :
    (processCommands ccInit
      [Command.enableWorkerThread, Command.disableWorkerThread,
       Command.enableWorkerThread]).liveWorkers ≤ 1 :=
  (singleLiveWorkerInvariant
    [Command.enableWorkerThread, Command.disableWorkerThread,
     Command.enableWorkerThread] Command.enableWorkerThread mtInit).1

/-- C8: The factory building a thread-safe adapter from a plain container
stores one freshly allocated handle per source element — pairwise
distinct allocation identities, all at or above the allocator frontier
`base` and so distinct from every earlier allocation — holding a copy
(const-reference overload) or the moved-from element's value (rvalue
overload) in the same order as the source container, and the wrapped
comparator handed to priority containers compares dereferenced payloads
only, independent of handle identity. -/
theorem factoryFreshHandlesAndComparator {α : Type} (base i1 i2 : Nat)
    (src : List α) (cmp : α → α → Bool) (x y : α) :
    (createHandlesFromCopy base src).map ElementHandle.value = src
    ∧ (createHandlesFromMove base src).map ElementHandle.value = src
    ∧ (createHandlesFromCopy base src).Pairwise (fun h1 h2 => h1.id ≠ h2.id)
    ∧ (∀ h ∈ createHandlesFromCopy base src, base ≤ h.id ∧ h.id < base + src.length)
    ∧ CustomComparator cmp ⟨i1, x⟩ ⟨i2, y⟩ = cmp x y :=
  ⟨createHandlesFromCopy_map_value base src,
   createHandlesFromCopy_map_value base src,
   createHandlesFromCopy_fresh base src,
   createHandlesFromCopy_id_bounds base src,
   rfl⟩

/-- Witness for factoryFreshHandlesAndComparator on the source container
[5, 1, 3] with allocator frontier 0. -/
theorem factoryFreshHandlesAndComparatorWitness :
    (createHandlesFromCopy 0 [5, 1, 3]).map ElementHandle.value = [5, 1, 3] :=
  (factoryFreshHandlesAndComparator 0 0 1 [5, 1, 3] natLtb 5 1).1

/-- C4 (the mt variant contradicts the claim): in the concurrency variant
the control thread is a no-op on Disable while Idle and on Enable while
Running, and Shutdown is terminal, as checked at the relevant concrete
states below; but in the mt variant the very first DisableWorkerThread
(or ShutdownMainThread, hence also destruction) processed before any
EnableWorkerThread reaches m_workerThread->joinable() through the
default null unique_ptr inside interruptWorkerThread — undefined
behaviour instead of the specified no-op. Once a worker thread object
has been allocated, the mt variant's Disable while Idle is again a
no-op, as the last conjunct shows. -/
theorem mtDisableWhileIdleNullHandle :
    mtMainThreadStep mtInit .disableWorkerThread = .error .nullWorkerThread
    ∧ mtProcessCommands mtInit [.shutdownMainThread] = .error .nullWorkerThread
    ∧ mainThreadStep ccInit .disableWorkerThread = ccInit
    ∧ mainThreadStep (mainThreadStep ccInit .enableWorkerThread) .enableWorkerThread
      = mainThreadStep ccInit .enableWorkerThread
    ∧ processCommands (mainThreadStep ccInit .shutdownMainThread)
        [.enableWorkerThread, .disableWorkerThread]
      = mainThreadStep ccInit .shutdownMainThread
    ∧ mtProcessCommands mtInit
        [.enableWorkerThread, .disableWorkerThread, .disableWorkerThread]
      = .ok ⟨false, true, false, false⟩ :=
  ⟨rfl, rfl, rfl, rfl, rfl, rfl⟩

/-- C9 (the code contradicts the claim at destruction): when construction
of the control thread throws, runMainThread catches the exception
(reporting it only under the DEBUG build flag) and the enqueue-only
public operations enableWorkerThread and disableWorkerThread still
complete; but the implicit shutdown performed by every role destructor
then evaluates m_mainThread->joinable() through the still-null
unique_ptr — undefined behaviour, so the controller does not survive
destruction in its degraded state. On the success path shutdown joins
normally. -/
theorem mainThreadStartFailureShutdownNullHandle :
    shutdownMainThread (runMainThread false controllerInit)
      = .error .nullMainThread
    ∧ enableWorkerThread (runMainThread false controllerInit)
      = ⟨false, [Command.enableWorkerThread]⟩
    ∧ disableWorkerThread (runMainThread false controllerInit)
      = ⟨false, [Command.disableWorkerThread]⟩
    ∧ shutdownMainThread (runMainThread true controllerInit)
      = .ok ⟨true, [Command.shutdownMainThread]⟩ :=
  ⟨rfl, rfl, rfl, rfl⟩

/-- C6 counterexample: shared adapter holding [1, 2, 3], a callback that
fails on the item 1, and a schedule of four enabled predicate
observations. The run of the Consumer work loop ends at the first failing
item with the loop terminated by the callback failure, no item delivered,
and the items 2 and 3 left unconsumed — not the outcome
remaining [], delivered [2, 3], loop still running that a per-item catch
continuing to the next item would produce. -/
theorem consumerCallbackFailureStopsLoop :
    consumerRunLoop (fun x => x != 1) [true, true, true, true] [1, 2, 3] []
      = ⟨[2, 3], [], true⟩
    ∧ consumerRunLoop (fun x => x != 1) [true, true, true, true] [1, 2, 3] []
      ≠ ⟨[], [2, 3], false⟩ := by
  refine ⟨rfl, ?_⟩
  decide

theorem consumerRunLoop_cons_blocked {α : Type} (cb : α → Bool)
    (sched : List Bool) (delivered : List α) :
    consumerRunLoop cb (true :: sched) [] delivered
      = consumerRunLoop cb sched [] delivered := rfl

theorem consumerRunLoop_cons_pop {α : Type} (cb : α → Bool) (x : α)
    (hx : cb x = true) (sched : List Bool) (rest delivered : List α) :
    consumerRunLoop cb (true :: sched) (x :: rest) delivered
      = consumerRunLoop cb sched rest (delivered ++ [x]) := by
  simp [consumerRunLoop, workerWaitPredicate, hx]

theorem consumerRunLoop_cons_throw {α : Type} (cb : α → Bool) (x : α)
    (hx : cb x = false) (sched : List Bool) (rest delivered : List α) :
    consumerRunLoop cb (true :: sched) (x :: rest) delivered
      = ⟨rest, delivered, true⟩ := by
  simp [consumerRunLoop, workerWaitPredicate, hx]

/-- C6 amended: a callback failure inside the Consumer work loop is not
caught per-item — it propagates out of workerThreadWork and terminates
that worker loop after consuming the failing item. It is caught and
reported at the worker-thread entry lambda (never crossing the thread
boundary unhandled), the items delivered before the failure are exactly
the consumed prefix that passed the callback, and every item after the
failing one stays in the shared adapter for a future Enable. -/
theorem consumerCallbackFailureBoundary {α : Type} (cb : α → Bool)
    (sched : List Bool) (shared delivered : List α) :
    ∃ j, (∀ x ∈ shared.take j, cb x = true)
    ∧ (if (consumerRunLoop cb sched shared delivered).exitedByCallbackFailure then
        ∃ bad rest, shared.drop j = bad :: rest ∧ cb bad = false
          ∧ consumerRunLoop cb sched shared delivered
            = ⟨rest, delivered ++ shared.take j, true⟩
      else consumerRunLoop cb sched shared delivered
            = ⟨shared.drop j, delivered ++ shared.take j, false⟩) := by
  induction sched generalizing shared delivered with
  | nil => exact ⟨0, by simp, by simp [consumerRunLoop]⟩
  | cons e sched ih =>
    cases e with
    | false => exact ⟨0, by simp, by simp [consumerRunLoop, workerWaitPredicate]⟩
    | true =>
      cases shared with
      | nil =>
        obtain ⟨j, hj1, hj2⟩ := ih ([] : List α) delivered
        rw [← consumerRunLoop_cons_blocked cb sched delivered] at hj2
        exact ⟨j, by simp, hj2⟩
      | cons x rest =>
        cases hx : cb x with
        | true =>
          obtain ⟨j, hj1, hj2⟩ := ih rest (delivered ++ [x])
          rw [← consumerRunLoop_cons_pop cb x hx sched rest delivered] at hj2
          refine ⟨j + 1, ?_, ?_⟩
          · intro y hy
            rw [List.take_succ_cons] at hy
            rcases List.mem_cons.mp hy with rfl | hy'
            · exact hx
            · exact hj1 y hy'
          · simpa [List.append_assoc] using hj2
        | false =>
          refine ⟨0, by simp, ?_⟩
          rw [consumerRunLoop_cons_throw cb x hx sched rest delivered]
          simp only [List.drop_zero, List.take_zero, List.append_nil]
          exact ⟨x, rest, rfl, hx, rfl⟩

/-- Witness for consumerCallbackFailureBoundary at an always-failing
callback over the one-element adapter [0]. -/
theorem consumerCallbackFailureBoundaryWitness :
    ∃ j, (∀ x ∈ ([0] : List Nat).take j, (fun _ => false : Nat → Bool) x = true)
    ∧ (if (consumerRunLoop (fun _ => false : Nat → Bool) [true] [0]
            []).exitedByCallbackFailure then
        ∃ bad rest, ([0] : List Nat).drop j = bad :: rest
          ∧ (fun _ => false : Nat → Bool) bad = false
          ∧ consumerRunLoop (fun _ => false : Nat → Bool) [true] [0] []
            = ⟨rest, [] ++ ([0] : List Nat).take j, true⟩
      else consumerRunLoop (fun _ => false : Nat → Bool) [true] [0] []
            = ⟨([0] : List Nat).drop j, [] ++ ([0] : List Nat).take j, false⟩) :=
  consumerCallbackFailureBoundary (fun _ => false) [true] [0] []
